import Mathlib

/-!
Verification of the flipbook render scheduler (EbookFlipbook /
EbookFlipbookMobile components).

The development shallowly embeds the scheduling-relevant parts of the two
React components: the viewport sizing function (`targetPageSize`), the
wanted-window computation of `renderWindow`, the zoom button handlers, the
navigation guard (`navTo`), the debounced `schedule` helper, and the
per-page render step `renderOne` together with the generation-changeover
prologue of the render effect.  Machine numbers of the source are modelled
as rationals (`ℚ`) and integers (`ℤ`); JavaScript `Math.round` is
`jsRound` (floor of x + 1/2, i.e. ties toward +∞).

Asynchrony is modelled by an explicit environment (`RenderEnv`) recording
the outcome of every await point of `renderOne` (canvas polling, the
document's `getPage`, viewport projection, the raster task), and by a step
relation on scheduler states in which `renderOne` executions and
generation changeovers interleave.  The per-execution segments between
suspension points run atomically, which matches the single-threaded event
loop of the source: shared sets are only touched synchronously between
awaits, and a superseding effect run cancels outstanding raster tasks in
its cleanup, so a stale execution resumes only through its cancellation
branch (modelled by the `cancelled`/`raster` fields of the environment).
-/

set_option maxHeartbeats 1600000

namespace Flipbook

/-- JavaScript `Math.round`: round half toward positive infinity. -/
def jsRound (x : ℚ) : ℤ := ⌊x + 1 / 2⌋

/-- A computed on-screen page box (CSS pixels), `{ w, h }` in the source. -/
structure PageBox where
  w : ℚ
  h : ℚ
deriving DecidableEq, Repr

/-- Embedding of the `targetPageSize` memo.  The source fixes `padX`,
`padY` and `controlsH` as local constants (24/16/84 in the desktop
variant, 8/8/60 in the mobile variant); they are parameters here so both
variants are instances.  The mobile variant is the `isNarrow = true`
instance of the width constraint.  `pageRatio = none` models the ratio
being unknown (`null`), and a ratio of `0` is also falsy in the source's
`if (!pageRatio) return null` guard. -/
def targetPageSize (containerWidth containerHeight padX padY controlsH : ℚ)
    (isNarrow : Bool) (pageRatio : Option ℚ) (viewZoom : ℚ) : Option PageBox :=
  match pageRatio with
  | none => none
  | some ratio =>
    if ratio = 0 then none
    else
      let availableW := max 0 (containerWidth - padX * 2)
      let availableH := max 0 (containerHeight - controlsH - padY * 2)
      if availableW ≤ 0 ∨ availableH ≤ 0 then none
      else
        let maxWByWidth := if isNarrow then availableW else availableW / 2
        let maxWByHeight := if 0 < ratio then availableH / ratio else maxWByWidth
        let baseW := max 0 (min maxWByWidth maxWByHeight)
        let w := baseW * viewZoom
        some ⟨w, w * ratio⟩

/-- Wanted page numbers of one pass of `renderWindow`, in ascending order:
`current` is the page index clamped to `[0, numPages-1]`, and the loop
runs from `max(1, currentPageNo - (isNarrow ? 2 : 4))` to
`min(numPages, currentPageNo + (isNarrow ? 4 : 10))`. -/
def wantList (isNarrow : Bool) (numPages pageIdx : ℤ) : List ℤ :=
  let current := max 0 (min (numPages - 1) pageIdx)
  let currentPageNo := current + 1
  let start := max 1 (currentPageNo - (if isNarrow then 2 else 4))
  let stop := min numPages (currentPageNo + (if isNarrow then 4 else 10))
  (List.range (stop + 1 - start).toNat).map (fun k : ℕ => start + (k : ℤ))

/-- The wanted window as a set (the source accumulates a `Set<number>`). -/
def renderWindowWant (isNarrow : Bool) (numPages pageIdx : ℤ) : Finset ℤ :=
  (wantList isNarrow numPages pageIdx).toFinset

/-- Zoom-in handler: `setViewZoom((z) => Math.min(2.5, Math.round((z + 0.1) * 10) / 10))`. -/
def onZoomIn (z : ℚ) : ℚ := min 2.5 ((jsRound ((z + 0.1) * 10) : ℚ) / 10)

/-- Zoom-out handler: `setViewZoom((z) => Math.max(0.7, Math.round((z - 0.1) * 10) / 10))`. -/
def onZoomOut (z : ℚ) : ℚ := max 0.7 ((jsRound ((z - 0.1) * 10) : ℚ) / 10)

/-- A zoom control press, in or out. -/
inductive ZoomOp
  | zin
  | zout
deriving DecidableEq, Repr

/-- Apply one zoom control press to the current zoom factor. -/
def applyZoomOp (z : ℚ) : ZoomOp → ℚ
  | .zin => onZoomIn z
  | .zout => onZoomOut z

/-- Zoom factor after a sequence of control presses, starting from the
initial `viewZoom` of `1.0`. -/
def zoomAfter (ops : List ZoomOp) : ℚ := ops.foldl applyZoomOp 1

/-- Navigation direction for `navTo`. -/
inductive NavDir
  | prev
  | next
deriving DecidableEq, Repr

/-- State read and written by `navTo`: the duplicate-trigger timestamp
`lastNavAtRef` and the current page index reported by the flipbook. -/
structure NavState where
  lastNavAt : ℚ
  curIdx : ℤ
deriving DecidableEq, Repr

/-- Observable outcome of one `navTo` call: the updated state, the
argument of `turnToPage` when it was invoked, and whether a render pass
was scheduled (`scheduleRenderRef.current?.()`). -/
structure NavResult where
  st : NavState
  turned : Option ℤ
  scheduled : Bool
deriving DecidableEq, Repr

/-- Raw (unclamped) navigation target: `curIdx + 1` for next, `curIdx - 1`
for prev. -/
def navTargetRaw (dir : NavDir) (c : ℤ) : ℤ :=
  match dir with
  | .next => c + 1
  | .prev => c - 1

/-- Embedding of `navTo` of the mobile variant: drop the intent when it
arrives within 240ms of the last accepted one; otherwise record the
timestamp, clamp the target index to `[0, max(0, numPages-1)]`, and turn
(plus schedule a render) only when the target differs from the current
index. -/
def navTo (dir : NavDir) (now : ℚ) (numPages : ℤ) (s : NavState) : NavResult :=
  if now - s.lastNavAt < 240 then ⟨s, none, false⟩
  else if max 0 (min (max 0 (numPages - 1)) (navTargetRaw dir s.curIdx)) = s.curIdx then
    ⟨⟨now, s.curIdx⟩, none, false⟩
  else
    ⟨⟨now, max 0 (min (max 0 (numPages - 1)) (navTargetRaw dir s.curIdx))⟩,
     some (max 0 (min (max 0 (numPages - 1)) (navTargetRaw dir s.curIdx))), true⟩

/-- Debounce timer state: the deadline of the armed single-shot timer
(`scheduleTimerRef`), if any, and the times at which a render pass
actually ran. -/
structure DebounceState where
  pending : Option ℚ
  fired : List ℚ
deriving DecidableEq, Repr

/-- The `schedule` helper at time `t`: `clearTimeout` any pending timer,
then arm a fresh single-shot timer for `t + 160`. -/
def scheduleAt (t : ℚ) (s : DebounceState) : DebounceState :=
  ⟨some (t + 160), s.fired⟩

/-- Event-loop timer delivery: before an event at time `t` is handled, a
pending timer whose deadline has passed fires (running `renderWindow`
once) and disarms itself. -/
def deliverUpTo (t : ℚ) (s : DebounceState) : DebounceState :=
  match s.pending with
  | some d => if d ≤ t then ⟨none, s.fired ++ [d]⟩ else s
  | none => s

/-- Process a burst of `requestRenderAround` calls at the given times, in
order: each call first lets any expired timer fire, then rearms. -/
def runBurst (times : List ℚ) (s : DebounceState) : DebounceState :=
  match times with
  | [] => s
  | t :: rest => runBurst rest (scheduleAt t (deliverUpTo t s))

/-- State after the burst once the event loop drains: the remaining armed
timer, if any, fires at its deadline. -/
def finishBurst (times : List ℚ) : DebounceState :=
  let s := runBurst times ⟨none, []⟩
  match s.pending with
  | some d => ⟨none, s.fired ++ [d]⟩
  | none => s

/-- Generation key, the triple behind the string
`${Math.round(w)}x${Math.round(h)}@${viewZoom.toFixed(2)}` (zoom kept as
hundredths). -/
structure GenKey where
  w : ℤ
  h : ℤ
  zoomCenti : ℤ
deriving DecidableEq, Repr

/-- Key of a page size and zoom factor. -/
def sizeKeyOf (w h zoom : ℚ) : GenKey := ⟨jsRound w, jsRound h, jsRound (zoom * 100)⟩

/-- Scheduler state shared across render effect runs: the stored
generation key (`lastSizeKeyRef`), the per-generation rendered and
in-flight page sets, and the content of each page's surface — `none` for
a blank (or absent) canvas, `some (k, p)` for a canvas holding page `p`
rasterized under generation `k`.  A canvas that is not attached is blank:
detaching destroys the element and a later attach mounts a fresh one. -/
structure SchedState where
  lastSizeKey : Option GenKey
  rendered : Finset ℤ
  inflight : Finset ℤ
  surfaces : ℤ → Option (GenKey × ℤ)

/-- Generation changeover prologue of the render effect: when the
computed key differs from the stored one, clear both page sets, store the
new key, and blank every surface. -/
def genPrologue (key : GenKey) (s : SchedState) : SchedState :=
  if s.lastSizeKey = some key then s
  else ⟨some key, ∅, ∅, fun _ => none⟩

/-- Outcome of an awaited raster task (`task.promise`): fulfilled,
rejected with the benign `RenderingCancelledException`, or rejected with
any other error. -/
inductive RasterOutcome
  | success
  | cancelled
  | error
deriving DecidableEq, Repr

/-- How one `renderOne` execution finishes: its promise fulfills
(`normal`) or rejects with an uncaught exception (`raised`). -/
inductive StepExit
  | normal
  | raised
deriving DecidableEq, Repr

/-- Environment of one `renderOne` execution: the generation key captured
by the enclosing effect, and the outcome of every await point, in source
order — the `cancelled` flag at entry, the epoch check
(`renderLoopIdRef.current === loopId`), whether `waitForCanvas` found the
canvas before its frame budget ran out, whether `pdfDoc.getPage`
fulfilled, the `cancelled` flag after it, whether viewport projection
(`getViewport`) returned without throwing, whether `getContext('2d')`
returned a context, and the raster task outcome. -/
structure RenderEnv where
  key : GenKey
  cancelledAtStart : Bool
  loopLive : Bool
  canvasFound : Bool
  getPageOk : Bool
  cancelledAfterGetPage : Bool
  viewportOk : Bool
  ctxOk : Bool
  raster : RasterOutcome
deriving DecidableEq, Repr

/-- Embedding of `renderOne`, one execution under environment `env`.
Every branch mirrors an exit path of the source.  Note that the
`try { render } catch { } finally { inflightPages.delete(pageNo) }` block
only wraps the raster task: a rejection of `pdfDoc.getPage` or an
exception from viewport projection propagates out of `renderOne` (exit
`raised`) without reaching the `finally`, leaving the page in the
in-flight set. -/
def renderOne (env : RenderEnv) (pageNo numPages : ℤ) (s : SchedState) :
    SchedState × StepExit :=
  if env.cancelledAtStart then (s, .normal)
  else if pageNo < 1 ∨ pageNo > numPages then (s, .normal)
  else if ¬env.loopLive then (s, .normal)
  else if pageNo ∈ s.rendered ∨ pageNo ∈ s.inflight then (s, .normal)
  else
    let s1 : SchedState :=
      ⟨s.lastSizeKey, s.rendered, insert pageNo s.inflight, s.surfaces⟩
    if ¬env.canvasFound then
      (⟨s1.lastSizeKey, s1.rendered, s1.inflight.erase pageNo, s1.surfaces⟩, .normal)
    else if ¬env.getPageOk then (s1, .raised)
    else if env.cancelledAfterGetPage then
      (⟨s1.lastSizeKey, s1.rendered, s1.inflight.erase pageNo, s1.surfaces⟩, .normal)
    else if ¬env.viewportOk then (s1, .raised)
    else if ¬env.ctxOk then
      (⟨s1.lastSizeKey, s1.rendered, s1.inflight.erase pageNo, s1.surfaces⟩, .normal)
    else
      match env.raster with
      | .success =>
          (⟨s1.lastSizeKey, insert pageNo s1.rendered, s1.inflight.erase pageNo,
            fun q => if q = pageNo then some (env.key, pageNo) else s1.surfaces q⟩,
           .normal)
      | .cancelled =>
          (⟨s1.lastSizeKey, s1.rendered, s1.inflight.erase pageNo, s1.surfaces⟩, .normal)
      | .error =>
          (⟨s1.lastSizeKey, s1.rendered, s1.inflight.erase pageNo, s1.surfaces⟩, .normal)

/-- Result of one `renderWindow` pass: the final state, the pages for
which `renderOne` was invoked (in order), and whether the pass's promise
rejected. -/
structure PassResult where
  st : SchedState
  attempted : List ℤ
  exit : StepExit

/-- The `for (const p of want) { await renderOne(p) }` loop of
`renderWindow`: sequential, and an uncaught rejection of `renderOne`
aborts the rest of the loop (the pass's promise rejects). -/
def runPages (envs : ℤ → RenderEnv) (numPages : ℤ) (pages : List ℤ)
    (s : SchedState) : PassResult :=
  match pages with
  | [] => ⟨s, [], .normal⟩
  | p :: rest =>
    let r := renderOne (envs p) p numPages s
    match r.2 with
    | .raised => ⟨r.1, [p], .raised⟩
    | .normal =>
      let rr := runPages envs numPages rest r.1
      ⟨rr.st, p :: rr.attempted, rr.exit⟩

/-- One `renderWindow` pass over the wanted window. -/
def renderPass (envs : ℤ → RenderEnv) (isNarrow : Bool) (numPages pageIdx : ℤ)
    (s : SchedState) : PassResult :=
  runPages envs numPages (wantList isNarrow numPages pageIdx) s

/-- Interleaved scheduler steps: a render effect run executes its
generation prologue, and `renderOne` executions of the current generation
run between suspension points.  The `hkey` premise records that a
`renderOne` body executes under the effect whose prologue stored its
captured key; an execution whose effect was superseded resumes only
through a benign branch of its environment (entry `cancelled` flag, epoch
check, or raster cancellation), since the superseding effect's cleanup
sets the flag and cancels outstanding raster tasks before the next
prologue runs on the single-threaded event loop. -/
inductive SchedStep : SchedState → SchedState → Prop
  | gen (key : GenKey) (s : SchedState) : SchedStep s (genPrologue key s)
  | render (env : RenderEnv) (pageNo numPages : ℤ) (s : SchedState)
      (hkey : s.lastSizeKey = some env.key) :
      SchedStep s (renderOne env pageNo numPages s).1

/-- Initial scheduler state: no stored key, empty sets, blank surfaces. -/
def initSched : SchedState := ⟨none, ∅, ∅, fun _ => none⟩

/-- States the scheduler can reach from start-up. -/
def Reachable (s : SchedState) : Prop := Relation.ReflTransGen SchedStep initSched s

/-- Every rendered page's surface holds that page rasterized under the
current generation key. -/
def SurfOk (s : SchedState) : Prop :=
  ∀ p ∈ s.rendered, ∃ k, s.lastSizeKey = some k ∧ s.surfaces p = some (k, p)

/-- No page is in both the rendered set and the in-flight set. -/
def SetsDisjoint (s : SchedState) : Prop :=
  ∀ p : ℤ, ¬(p ∈ s.rendered ∧ p ∈ s.inflight)

/-- A sample generation key. -/
def keyA : GenKey := ⟨800, 600, 100⟩

/-- A scheduler state at generation `keyA` with nothing rendered and
nothing in flight. -/
def stateA : SchedState := ⟨some keyA, ∅, ∅, fun _ => none⟩

/-- Environment of an execution in which every await point succeeds and
the raster task fulfills. -/
def envAllOk : RenderEnv := ⟨keyA, false, true, true, true, false, true, true, .success⟩

/-- Environment of an execution in which `pdfDoc.getPage` rejects; all
earlier await points succeed. -/
def envGetPageRejects : RenderEnv := ⟨keyA, false, true, true, false, false, true, true, .success⟩

/-- Per-page environments of a pass in which page 2's `getPage` rejects
and every other page renders cleanly. -/
def envsPage2Rejects : ℤ → RenderEnv := fun p => if p = 2 then envGetPageRejects else envAllOk

lemma toFinset_rangeMap (a b : ℤ) :
    ((List.range (b + 1 - a).toNat).map (fun k : ℕ => a + (k : ℤ))).toFinset =
      Finset.Icc a b := by
  ext p
  rw [List.mem_toFinset, Finset.mem_Icc, List.mem_map]
  constructor
  · rintro ⟨k, hk, rfl⟩
    rw [List.mem_range] at hk
    omega
  · rintro ⟨h1, h2⟩
    refine ⟨(p - a).toNat, ?_, ?_⟩
    · rw [List.mem_range]
      omega
    · omega

lemma floor_intCast_add_half (n : ℤ) : ⌊(n : ℚ) + 1 / 2⌋ = n := by
  rw [add_comm, Int.floor_add_int]
  norm_num

lemma jsRound_le_of_le {x : ℚ} {n : ℤ} (h : x ≤ (n : ℚ)) : jsRound x ≤ n := by
  have h1 : ⌊x + 1 / 2⌋ ≤ ⌊(n : ℚ) + 1 / 2⌋ := by gcongr
  rw [floor_intCast_add_half] at h1
  exact h1

lemma le_jsRound_of_le {x : ℚ} {n : ℤ} (h : (n : ℚ) ≤ x) : n ≤ jsRound x := by
  have h1 : ⌊(n : ℚ) + 1 / 2⌋ ≤ ⌊x + 1 / 2⌋ := by gcongr
  rw [floor_intCast_add_half] at h1
  exact h1

lemma zoom_step_bounds {z : ℚ} (h0 : 0.7 ≤ z) (h1 : z ≤ 2.5) (op : ZoomOp) :
    0.7 ≤ applyZoomOp z op ∧ applyZoomOp z op ≤ 2.5 := by
  cases op with
  | zin =>
    unfold applyZoomOp onZoomIn
    constructor
    · refine le_min (by norm_num) ?_
      have h8 : (8 : ℤ) ≤ jsRound ((z + 0.1) * 10) := le_jsRound_of_le (by push_cast; linarith)
      have h8q : (8 : ℚ) ≤ (jsRound ((z + 0.1) * 10) : ℚ) := by exact_mod_cast h8
      linarith
    · exact min_le_left _ _
  | zout =>
    unfold applyZoomOp onZoomOut
    constructor
    · exact le_max_left _ _
    · refine max_le (by norm_num) ?_
      have h24 : jsRound ((z - 0.1) * 10) ≤ (24 : ℤ) := jsRound_le_of_le (by push_cast; linarith)
      have h24q : (jsRound ((z - 0.1) * 10) : ℚ) ≤ 24 := by exact_mod_cast h24
      linarith

/-- C2.  Wanted-window computation: for every `pageCount ≥ 1` and current
index `i` in range, the pass wants exactly the contiguous 1-based range
`[max(1, (i+1)-4), min(N, (i+1)+10)]` in spread layout and
`[max(1, (i+1)-2), min(N, (i+1)+4)]` in narrow layout; for `N = 10`,
`i = 5`, spread layout the wanted set is `{2,…,10}`. -/
theorem claim_C2 (N i : ℤ) (hN : 1 ≤ N) (h0 : 0 ≤ i) (hi : i ≤ N - 1) :
    renderWindowWant false N i = Finset.Icc (max 1 (i + 1 - 4)) (min N (i + 1 + 10)) ∧
    renderWindowWant true N i = Finset.Icc (max 1 (i + 1 - 2)) (min N (i + 1 + 4)) ∧
    renderWindowWant false 10 5 = ({2, 3, 4, 5, 6, 7, 8, 9, 10} : Finset ℤ) := by
  have hcur : max 0 (min (N - 1) i) = i := by omega
  refine ⟨?_, ?_, by decide⟩
  · simp only [renderWindowWant, wantList, hcur, Bool.false_eq_true, if_false]
    exact toFinset_rangeMap _ _
  · simp only [renderWindowWant, wantList, hcur, if_true]
    exact toFinset_rangeMap _ _

/-- Witness for C2 at `N = 10`, `i = 5`. -/
theorem claim_C2_witness :
    renderWindowWant false 10 5 = ({2, 3, 4, 5, 6, 7, 8, 9, 10} : Finset ℤ) :=
  (claim_C2 10 5 (by norm_num) (by norm_num) (by norm_num)).2.2

/-- C5.  Viewport sizing: with a known positive ratio, the result is
`none` exactly when an available dimension is non-positive, and otherwise
`baseW = max(0, min(narrow ? availableW : availableW/2, availableH/ratio))`,
`w = baseW·zoom`, `h = w·ratio`; an unknown ratio also yields `none`; and
for `ratio = 1.4142`, narrow, `availableW = 400`, `availableH = 1000`,
`zoom = 1` the result is `w = 400`, `h = 565.68`. -/
theorem claim_C5 (cw ch padX padY controlsH ratio zoom aw ah : ℚ) (narrow : Bool)
    (hr : 0 < ratio) (haw : aw = max 0 (cw - padX * 2))
    (hah : ah = max 0 (ch - controlsH - padY * 2)) :
    targetPageSize cw ch padX padY controlsH narrow none zoom = none ∧
    (targetPageSize cw ch padX padY controlsH narrow (some ratio) zoom = none ↔
      aw ≤ 0 ∨ ah ≤ 0) ∧
    (0 < aw → 0 < ah →
      targetPageSize cw ch padX padY controlsH narrow (some ratio) zoom =
        some ⟨max 0 (min (if narrow then aw else aw / 2) (ah / ratio)) * zoom,
              max 0 (min (if narrow then aw else aw / 2) (ah / ratio)) * zoom * ratio⟩) ∧
    targetPageSize 448 1116 24 16 84 true (some (14142 / 10000)) 1 =
      some ⟨400, 14142 / 25⟩ := by
  subst haw hah
  refine ⟨rfl, ?_, ?_, by norm_num [targetPageSize]⟩
  · simp only [targetPageSize, if_neg hr.ne']
    by_cases h : max 0 (cw - padX * 2) ≤ 0 ∨ max 0 (ch - controlsH - padY * 2) ≤ 0
    · rw [if_pos h]
      exact iff_of_true rfl h
    · rw [if_neg h]
      exact iff_of_false (by simp) h
  · intro h1 h2
    have hno : ¬(max 0 (cw - padX * 2) ≤ 0 ∨ max 0 (ch - controlsH - padY * 2) ≤ 0) := by
      push_neg
      exact ⟨h1, h2⟩
    simp only [targetPageSize, if_neg hr.ne', if_neg hno, if_pos hr]

/-- Witness for C5 at the spec's concrete sizing example. -/
theorem claim_C5_witness :
    targetPageSize 448 1116 24 16 84 true (some (14142 / 10000)) 1 =
      some ⟨400, 14142 / 25⟩ :=
  (claim_C5 448 1116 24 16 84 (14142 / 10000) 1 400 1000 true (by norm_num)
    (by norm_num) (by norm_num)).2.2.2

/-- C8.  Zoom bound invariant: starting from the initial zoom `1.0`,
after every finite sequence of zoom-in and zoom-out presses the zoom
factor stays within `[0.7, 2.5]`. -/
theorem claim_C8 (ops : List ZoomOp) :
    0.7 ≤ zoomAfter ops ∧ zoomAfter ops ≤ 2.5 := by
  suffices h : ∀ z : ℚ, 0.7 ≤ z → z ≤ 2.5 →
      0.7 ≤ ops.foldl applyZoomOp z ∧ ops.foldl applyZoomOp z ≤ 2.5 by
    exact h 1 (by norm_num) (by norm_num)
  induction ops with
  | nil => exact fun z h0 h1 => ⟨h0, h1⟩
  | cons op rest ih =>
    intro z h0 h1
    have hstep := zoom_step_bounds h0 h1 op
    exact ih _ hstep.1 hstep.2

/-- C9.  Duplicate-navigation guard: an intent arriving less than 240ms
after the last accepted one is dropped outright; one arriving 240ms or
later is accepted (the timestamp is recorded); two `flipNext` calls 50ms
apart produce exactly one page advance, two calls 300ms apart produce
two. -/
theorem claim_C9 :
    (∀ (s : NavState) (N : ℤ) (d : NavDir) (now : ℚ),
        now - s.lastNavAt < 240 → navTo d now N s = ⟨s, none, false⟩) ∧
    (∀ (s : NavState) (N : ℤ) (d : NavDir) (now : ℚ),
        240 ≤ now - s.lastNavAt → (navTo d now N s).st.lastNavAt = now) ∧
    (navTo .next 1000 10 ⟨0, 0⟩).turned = some 1 ∧
    (navTo .next 1050 10 (navTo .next 1000 10 ⟨0, 0⟩).st).turned = none ∧
    (navTo .next 1050 10 (navTo .next 1000 10 ⟨0, 0⟩).st).st.curIdx = 1 ∧
    (navTo .next 1300 10 (navTo .next 1000 10 ⟨0, 0⟩).st).turned = some 2 ∧
    (navTo .next 1300 10 (navTo .next 1000 10 ⟨0, 0⟩).st).st.curIdx = 2 := by
  refine ⟨?_, ?_, ?_, ?_, ?_, ?_, ?_⟩
  · intro s N d now h
    unfold navTo
    rw [if_pos h]
  · intro s N d now h
    unfold navTo
    rw [if_neg (not_lt.2 h)]
    split <;> rfl
  all_goals norm_num [navTo, navTargetRaw]

/-- Witness for C9: a call 100ms after the last accepted one is dropped. -/
theorem claim_C9_witness :
    navTo .next 100 10 ⟨0, 0⟩ = ⟨⟨0, 0⟩, none, false⟩ :=
  claim_C9.1 ⟨0, 0⟩ 10 .next 100 (by norm_num)

/-- C10.  Navigation boundary clamping: with the guard satisfied, `navTo`
records the timestamp, targets `curIdx ± 1` clamped to
`[0, numPages - 1]`, and when the clamped target equals the current index
it neither turns the page nor schedules a render pass. -/
theorem claim_C10 (s : NavState) (N : ℤ) (d : NavDir) (now : ℚ)
    (hN : 1 ≤ N) (hc0 : 0 ≤ s.curIdx) (hc1 : s.curIdx ≤ N - 1)
    (hgap : 240 ≤ now - s.lastNavAt) :
    (navTo d now N s).st.lastNavAt = now ∧
    (max 0 (min (N - 1) (navTargetRaw d s.curIdx)) = s.curIdx →
      (navTo d now N s).turned = none ∧ (navTo d now N s).scheduled = false ∧
      (navTo d now N s).st.curIdx = s.curIdx) ∧
    (max 0 (min (N - 1) (navTargetRaw d s.curIdx)) ≠ s.curIdx →
      (navTo d now N s).turned = some (max 0 (min (N - 1) (navTargetRaw d s.curIdx))) ∧
      (navTo d now N s).scheduled = true) := by
  have hin : max 0 (N - 1) = N - 1 := by omega
  unfold navTo
  rw [if_neg (not_lt.2 hgap), hin]
  by_cases h : max 0 (min (N - 1) (navTargetRaw d s.curIdx)) = s.curIdx
  · rw [if_pos h]
    exact ⟨rfl, fun _ => ⟨rfl, rfl, rfl⟩, fun hne => absurd h hne⟩
  · rw [if_neg h]
    exact ⟨rfl, fun heq => absurd heq h, fun _ => ⟨rfl, rfl⟩⟩

/-- Witness for C10: `flipNext` on the last page (index 9 of 10) is a
no-op apart from the recorded timestamp. -/
theorem claim_C10_witness :
    (navTo .next 1000 10 ⟨0, 9⟩).turned = none ∧
    (navTo .next 1000 10 ⟨0, 9⟩).scheduled = false ∧
    (navTo .next 1000 10 ⟨0, 9⟩).st.curIdx = 9 :=
  (claim_C10 ⟨0, 9⟩ 10 .next 1000 (by norm_num) (by norm_num) (by norm_num)
    (by norm_num)).2.1 (by norm_num [navTargetRaw])

lemma runBurst_pending (t : ℚ) (rest : List ℚ) (f : List ℚ)
    (hchain : List.Chain' (fun a b : ℚ => a ≤ b ∧ b - a < 160) (t :: rest)) :
    runBurst rest ⟨some (t + 160), f⟩ = ⟨some (rest.getLastD t + 160), f⟩ := by
  induction rest generalizing t with
  | nil => rfl
  | cons u rest ih =>
    obtain ⟨⟨hle, hgap⟩, hchain2⟩ := List.chain'_cons.1 hchain
    have hnofire : ¬(t + 160 ≤ u) := by linarith
    have hd : deliverUpTo u ⟨some (t + 160), f⟩ = ⟨some (t + 160), f⟩ := by
      simp only [deliverUpTo, if_neg hnofire]
    show runBurst rest (scheduleAt u (deliverUpTo u ⟨some (t + 160), f⟩)) = _
    rw [hd]
    show runBurst rest ⟨some (u + 160), f⟩ = _
    rw [ih u hchain2, List.getLastD_cons]

/-- C6.  Debounced scheduling: a burst of schedule requests in which each
request arrives less than 160ms after the previous one produces exactly
one render pass, fired 160ms after the last request. -/
theorem claim_C6 (t : ℚ) (rest : List ℚ)
    (hchain : List.Chain' (fun a b : ℚ => a ≤ b ∧ b - a < 160) (t :: rest)) :
    (finishBurst (t :: rest)).fired = [rest.getLastD t + 160] ∧
    (finishBurst (t :: rest)).fired.length = 1 := by
  have h0 : runBurst (t :: rest) ⟨none, []⟩ = runBurst rest ⟨some (t + 160), []⟩ := rfl
  unfold finishBurst
  rw [h0, runBurst_pending t rest [] hchain]
  exact ⟨rfl, rfl⟩

/-- Witness for C6: three requests at 0, 100 and 200ms coalesce into a
single pass at 360ms. -/
theorem claim_C6_witness :
    (finishBurst [0, 100, 200]).fired = [360] ∧
    (finishBurst [0, 100, 200]).fired.length = 1 := by
  have h := claim_C6 0 [100, 200] (by
    refine List.chain'_cons.2 ⟨⟨by norm_num, by norm_num⟩, ?_⟩
    refine List.chain'_cons.2 ⟨⟨by norm_num, by norm_num⟩, ?_⟩
    exact List.chain'_singleton 200)
  have h360 : (200 : ℚ) + 160 = 360 := by norm_num
  rw [List.getLastD_cons, List.getLastD_cons, List.getLastD_nil, h360] at h
  exact h

lemma surfOk_genPrologue (key : GenKey) (s : SchedState) (h : SurfOk s) :
    SurfOk (genPrologue key s) := by
  unfold genPrologue
  split_ifs with hk
  · exact h
  · intro p hp
    exact absurd hp (Finset.not_mem_empty p)

lemma disjoint_genPrologue (key : GenKey) (s : SchedState) (h : SetsDisjoint s) :
    SetsDisjoint (genPrologue key s) := by
  unfold genPrologue
  split_ifs with hk
  · exact h
  · intro p hp
    exact absurd hp.1 (Finset.not_mem_empty p)

lemma mem_insert_erase_elim {fl : Finset ℤ} {n q : ℤ}
    (hq : q ∈ (insert n fl).erase n) (hnot : q ∉ fl) : False := by
  rcases Finset.mem_insert.1 (Finset.mem_of_mem_erase hq) with he | hs
  · exact Finset.ne_of_mem_erase hq he
  · exact hnot hs

lemma mem_insert_elim {fl : Finset ℤ} {n q : ℤ}
    (hq : q ∈ insert n fl) (hnot : q ∉ fl) : q = n :=
  (Finset.mem_insert.1 hq).resolve_right hnot

lemma disjoint_insert_erase {r fl : Finset ℤ} {n : ℤ}
    (h : ∀ p : ℤ, ¬(p ∈ r ∧ p ∈ fl)) :
    ∀ p : ℤ, ¬(p ∈ r ∧ p ∈ (insert n fl).erase n) := by
  intro p hp
  rcases Finset.mem_insert.1 (Finset.mem_of_mem_erase hp.2) with he | hs
  · exact Finset.ne_of_mem_erase hp.2 he
  · exact h p ⟨hp.1, hs⟩

lemma disjoint_insert_right {r fl : Finset ℤ} {n : ℤ}
    (h : ∀ p : ℤ, ¬(p ∈ r ∧ p ∈ fl)) (hn : n ∉ r) :
    ∀ p : ℤ, ¬(p ∈ r ∧ p ∈ insert n fl) := by
  intro p hp
  rcases Finset.mem_insert.1 hp.2 with he | hs
  · exact hn (he ▸ hp.1)
  · exact h p ⟨hp.1, hs⟩

lemma disjoint_insert_left_erase {r fl : Finset ℤ} {n : ℤ}
    (h : ∀ p : ℤ, ¬(p ∈ r ∧ p ∈ fl)) (hn : n ∉ fl) :
    ∀ p : ℤ, ¬(p ∈ insert n r ∧ p ∈ (insert n fl).erase n) := by
  intro p hp
  rcases Finset.mem_insert.1 (Finset.mem_of_mem_erase hp.2) with he | hs
  · exact Finset.ne_of_mem_erase hp.2 he
  · rcases Finset.mem_insert.1 hp.1 with he2 | hr2
    · exact hn (he2 ▸ hs)
    · exact h p ⟨hr2, hs⟩

lemma surfOk_renderOne (env : RenderEnv) (pageNo numPages : ℤ) (s : SchedState)
    (hkey : s.lastSizeKey = some env.key) (h : SurfOk s) :
    SurfOk (renderOne env pageNo numPages s).1 := by
  unfold renderOne
  split_ifs with h1 h2 h3 h4 h5 h6 h7 h8 h9
  all_goals try exact h
  cases env.raster with
  | success =>
    intro p hp
    rcases Finset.mem_insert.1 hp with hpe | hps
    · refine ⟨env.key, hkey, ?_⟩
      show (if p = pageNo then some (env.key, pageNo) else s.surfaces p) = some (env.key, p)
      rw [if_pos hpe, hpe]
    · obtain ⟨k, hsk, hsurf⟩ := h p hps
      have hne : p ≠ pageNo := by
        intro hpn
        exact h4 (Or.inl (hpn ▸ hps))
      refine ⟨k, hsk, ?_⟩
      show (if p = pageNo then some (env.key, pageNo) else s.surfaces p) = some (k, p)
      rw [if_neg hne]
      exact hsurf
  | cancelled => exact h
  | error => exact h

lemma disjoint_renderOne (env : RenderEnv) (pageNo numPages : ℤ) (s : SchedState)
    (h : SetsDisjoint s) : SetsDisjoint (renderOne env pageNo numPages s).1 := by
  unfold renderOne
  split_ifs with h1 h2 h3 h4 h5 h6 h7 h8 h9
  all_goals try exact h
  all_goals push_neg at h4
  all_goals try exact disjoint_insert_erase h
  all_goals try exact disjoint_insert_right h h4.1
  cases env.raster with
  | success => exact disjoint_insert_left_erase h h4.2
  | cancelled => exact disjoint_insert_erase h
  | error => exact disjoint_insert_erase h

lemma reachable_inv (s : SchedState) (h : Reachable s) : SurfOk s ∧ SetsDisjoint s := by
  unfold Reachable at h
  induction h with
  | refl =>
    constructor
    · intro p hp
      exact absurd hp (Finset.not_mem_empty p)
    · intro p hp
      exact absurd hp.1 (Finset.not_mem_empty p)
  | tail hsteps hstep ih =>
    cases hstep with
    | gen key s =>
      exact ⟨surfOk_genPrologue _ _ ih.1, disjoint_genPrologue _ _ ih.2⟩
    | render env pageNo numPages s hkey =>
      exact ⟨surfOk_renderOne _ _ _ _ hkey ih.1, disjoint_renderOne _ _ _ _ ih.2⟩

/-- C1.  No stale-generation leakage: in every reachable scheduler state,
every page of the rendered set has its surface holding that page
rasterized under the current generation key; and when the generation key
changes, the changeover prologue empties both sets, stores the new key
and blanks every surface before any render of the new generation runs,
so previously rendered pages are excluded from the new rendered set
until re-rendered. -/
theorem claim_C1 (s : SchedState) (hs : Reachable s) :
    (∀ p ∈ s.rendered, ∃ k, s.lastSizeKey = some k ∧ s.surfaces p = some (k, p)) ∧
    (∀ key : GenKey, s.lastSizeKey ≠ some key →
      (genPrologue key s).rendered = ∅ ∧ (genPrologue key s).inflight = ∅ ∧
      (genPrologue key s).lastSizeKey = some key ∧
      ∀ p, (genPrologue key s).surfaces p = none) := by
  refine ⟨(reachable_inv s hs).1, ?_⟩
  intro key hne
  unfold genPrologue
  rw [if_neg (fun h => hne h)]
  exact ⟨rfl, rfl, rfl, fun p => rfl⟩

/-- Witness for C1 at the initial state and a fresh generation key. -/
theorem claim_C1_witness :
    (genPrologue keyA initSched).rendered = ∅ ∧
    (genPrologue keyA initSched).inflight = ∅ ∧
    (genPrologue keyA initSched).lastSizeKey = some keyA ∧
    ∀ p, (genPrologue keyA initSched).surfaces p = none :=
  (claim_C1 initSched Relation.ReflTransGen.refl).2 keyA (by
    intro h
    exact Option.noConfusion h)

/-- C7.  Disjointness of render-state sets: in every reachable state no
page is in both the rendered and in-flight sets; a `renderOne` execution
admits a page into the in-flight set only when that page (its own) was
in neither set; and a page newly marked rendered is not in the in-flight
set afterwards. -/
theorem claim_C7 :
    (∀ s : SchedState, Reachable s → ∀ p : ℤ, ¬(p ∈ s.rendered ∧ p ∈ s.inflight)) ∧
    (∀ (env : RenderEnv) (pageNo numPages q : ℤ) (s : SchedState),
        q ∈ (renderOne env pageNo numPages s).1.inflight → q ∉ s.inflight →
        q = pageNo ∧ q ∉ s.rendered) ∧
    (∀ (env : RenderEnv) (pageNo numPages q : ℤ) (s : SchedState),
        q ∈ (renderOne env pageNo numPages s).1.rendered → q ∉ s.rendered →
        q ∉ (renderOne env pageNo numPages s).1.inflight) := by
  refine ⟨fun s hs => (reachable_inv s hs).2, ?_, ?_⟩
  · intro env pageNo numPages q s hq hnot
    unfold renderOne at hq
    split_ifs at hq with h1 h2 h3 h4 h5 h6 h7 h8 h9
    all_goals try exact (hnot hq).elim
    all_goals push_neg at h4
    all_goals try exact (mem_insert_erase_elim hq hnot).elim
    all_goals try (revert hq
                   cases env.raster <;> intro hq <;>
                     exact (mem_insert_erase_elim hq hnot).elim)
    all_goals exact ⟨mem_insert_elim hq hnot,
      by rw [mem_insert_elim hq hnot]; exact h4.1⟩
  · intro env pageNo numPages q s hq hnot
    unfold renderOne at hq ⊢
    split_ifs at hq ⊢ with h1 h2 h3 h4 h5 h6 h7 h8 h9
    all_goals try exact (hnot hq).elim
    revert hq
    cases env.raster with
    | success =>
      intro hq
      rw [mem_insert_elim hq hnot]
      exact Finset.not_mem_erase pageNo _
    | cancelled => intro hq; exact (hnot hq).elim
    | error => intro hq; exact (hnot hq).elim

lemma renderOne_inflight_clear (env : RenderEnv) (q numPages : ℤ) (s : SchedState)
    (p : ℤ) (hg : env.getPageOk = true) (hv : env.viewportOk = true)
    (hnot : p ∉ s.inflight) : p ∉ (renderOne env q numPages s).1.inflight := by
  unfold renderOne
  split_ifs
  all_goals try exact hnot
  all_goals try (intro hmem; exact mem_insert_erase_elim hmem hnot)
  all_goals try (revert hnot
                 cases env.raster <;> intro hnot hmem <;>
                   exact mem_insert_erase_elim hmem hnot)
  all_goals simp_all

lemma renderOne_normal (env : RenderEnv) (q numPages : ℤ) (s : SchedState)
    (hg : env.getPageOk = true) (hv : env.viewportOk = true) :
    (renderOne env q numPages s).2 = .normal := by
  unfold renderOne
  split_ifs
  all_goals try rfl
  all_goals try (cases env.raster <;> rfl)
  all_goals simp_all

lemma renderOne_rendered_subset (env : RenderEnv) (q numPages : ℤ) (s : SchedState) :
    (renderOne env q numPages s).1.rendered ⊆ insert q s.rendered := by
  unfold renderOne
  split_ifs
  all_goals try exact Finset.subset_insert q s.rendered
  cases env.raster
  · exact Finset.Subset.refl _
  · exact Finset.subset_insert q s.rendered
  · exact Finset.subset_insert q s.rendered

lemma renderOne_rendered_of_not_success (env : RenderEnv) (q numPages : ℤ)
    (s : SchedState) (h : env.raster ≠ .success) :
    (renderOne env q numPages s).1.rendered = s.rendered := by
  unfold renderOne
  split_ifs
  all_goals try rfl
  cases hr : env.raster
  · exact absurd hr h
  · rfl
  · rfl

lemma runPages_good (envs : ℤ → RenderEnv) (numPages : ℤ) (pages : List ℤ)
    (s : SchedState) (hg : ∀ p : ℤ, (envs p).getPageOk = true)
    (hv : ∀ p : ℤ, (envs p).viewportOk = true) :
    (runPages envs numPages pages s).exit = .normal ∧
    (runPages envs numPages pages s).attempted = pages := by
  induction pages generalizing s with
  | nil => exact ⟨rfl, rfl⟩
  | cons q rest ih =>
    have hn : (renderOne (envs q) q numPages s).2 = .normal :=
      renderOne_normal _ _ _ _ (hg q) (hv q)
    have h1 := ih ((renderOne (envs q) q numPages s).1)
    simp only [runPages, hn]
    exact ⟨h1.1, by rw [h1.2]⟩

lemma runPages_error_not_rendered (envs : ℤ → RenderEnv) (numPages : ℤ)
    (pages : List ℤ) (s : SchedState) (p : ℤ) (hp : p ∉ s.rendered)
    (he : (envs p).raster = .error) :
    p ∉ (runPages envs numPages pages s).st.rendered := by
  induction pages generalizing s with
  | nil => exact hp
  | cons q rest ih =>
    have hstep : p ∉ (renderOne (envs q) q numPages s).1.rendered := by
      by_cases hqp : q = p
      · subst hqp
        rw [renderOne_rendered_of_not_success _ _ _ _ (by rw [he]; decide)]
        exact hp
      · intro hmem
        have h2 := renderOne_rendered_subset (envs q) q numPages s hmem
        rcases Finset.mem_insert.1 h2 with h3 | h3
        · exact hqp h3.symm
        · exact hp h3
    cases hx : (renderOne (envs q) q numPages s).2 with
    | raised =>
      simp only [runPages, hx]
      exact hstep
    | normal =>
      simp only [runPages, hx]
      exact ih _ hstep

lemma runPages_inflight_clear (envs : ℤ → RenderEnv) (numPages : ℤ)
    (pages : List ℤ) (s : SchedState) (p : ℤ)
    (hg : ∀ p : ℤ, (envs p).getPageOk = true)
    (hv : ∀ p : ℤ, (envs p).viewportOk = true) (hnot : p ∉ s.inflight) :
    p ∉ (runPages envs numPages pages s).st.inflight := by
  induction pages generalizing s with
  | nil => exact hnot
  | cons q rest ih =>
    have hn : (renderOne (envs q) q numPages s).2 = .normal :=
      renderOne_normal _ _ _ _ (hg q) (hv q)
    simp only [runPages, hn]
    exact ih _ (renderOne_inflight_clear _ _ _ _ _ (hg q) (hv q) hnot)

/-- C3 counterexample.  When `pdfDoc.getPage` rejects, the execution that
added the page to the in-flight set exits (its promise rejects) with the
page still in-flight: the `finally` that clears `InFlight` wraps only the
raster task, so this exit path skips it. -/
theorem claim_C3_counterexample :
    (2 : ℤ) ∉ stateA.inflight ∧
    (renderOne envGetPageRejects 2 10 stateA).2 = .raised ∧
    (2 : ℤ) ∈ (renderOne envGetPageRejects 2 10 stateA).1.inflight := by
  decide

/-- C3 (amended).  Guaranteed in-flight cleanup on every exit path of
`renderOne` that does not throw outside the raster try-block: whenever
`getPage` fulfills and viewport projection does not throw — covering
success, raster cancellation, raster error, surface timeout and missing
2D context — the page is not in the in-flight set when the execution
finishes. -/
theorem claim_C3 (env : RenderEnv) (pageNo numPages : ℤ) (s : SchedState)
    (hg : env.getPageOk = true) (hv : env.viewportOk = true)
    (hnot : pageNo ∉ s.inflight) :
    pageNo ∉ (renderOne env pageNo numPages s).1.inflight :=
  renderOne_inflight_clear env pageNo numPages s pageNo hg hv hnot

/-- Witness for C3 at a clean execution of page 2. -/
theorem claim_C3_witness :
    (2 : ℤ) ∉ (renderOne envAllOk 2 10 stateA).1.inflight :=
  claim_C3 envAllOk 2 10 stateA rfl rfl (by decide)

/-- C4 counterexample.  A `getPage` rejection on page 2 of the window
`[2..10]` (pass at `numPages = 10`, index 5, spread) aborts the pass:
page 3 is never attempted, and page 2 is left in-flight, so later passes
skip it rather than retry it. -/
theorem claim_C4_counterexample :
    (renderPass envsPage2Rejects false 10 5 stateA).attempted = [2] ∧
    (renderPass envsPage2Rejects false 10 5 stateA).exit = .raised ∧
    (3 : ℤ) ∉ (renderPass envsPage2Rejects false 10 5 stateA).attempted ∧
    (2 : ℤ) ∉ (renderPass envsPage2Rejects false 10 5 stateA).st.rendered ∧
    (2 : ℤ) ∈ (renderPass envsPage2Rejects false 10 5 stateA).st.inflight := by
  decide

/-- C4 (amended).  Per-page failure isolation for raster-task failures:
when no page's `getPage` or viewport projection throws, the pass
completes normally, every page of the wanted window is attempted in
order regardless of raster outcomes, a page whose raster task fails is
not added to the rendered set, and a page not already in-flight is left
out of the in-flight set — so a failed page remains `NotRendered` and
eligible for retry.  (An exception from `getPage` or viewport projection
instead aborts the remainder of the pass, as the counterexample shows.) -/
theorem claim_C4 (envs : ℤ → RenderEnv) (isNarrow : Bool) (numPages pageIdx : ℤ)
    (s : SchedState) (hg : ∀ p : ℤ, (envs p).getPageOk = true)
    (hv : ∀ p : ℤ, (envs p).viewportOk = true) :
    (renderPass envs isNarrow numPages pageIdx s).exit = .normal ∧
    (renderPass envs isNarrow numPages pageIdx s).attempted =
      wantList isNarrow numPages pageIdx ∧
    (∀ p : ℤ, p ∉ s.rendered → (envs p).raster = .error →
      p ∉ (renderPass envs isNarrow numPages pageIdx s).st.rendered) ∧
    (∀ p : ℤ, p ∉ s.inflight →
      p ∉ (renderPass envs isNarrow numPages pageIdx s).st.inflight) := by
  refine ⟨(runPages_good envs numPages _ s hg hv).1,
          (runPages_good envs numPages _ s hg hv).2,
          fun p hp he => runPages_error_not_rendered envs numPages _ s p hp he,
          fun p hp => runPages_inflight_clear envs numPages _ s p hg hv hp⟩

/-- Witness for C4: a clean pass over a 3-page document attempts exactly
the wanted window and finishes normally. -/
theorem claim_C4_witness :
    (renderPass (fun _ => envAllOk) false 3 0 stateA).exit = .normal ∧
    (renderPass (fun _ => envAllOk) false 3 0 stateA).attempted = wantList false 3 0 :=
  ⟨(claim_C4 (fun _ => envAllOk) false 3 0 stateA (fun _ => rfl) (fun _ => rfl)).1,
   (claim_C4 (fun _ => envAllOk) false 3 0 stateA (fun _ => rfl) (fun _ => rfl)).2.1⟩

/-- Witness for C7 at the (reachable) initial state. -/
theorem claim_C7_witness :
    ¬((2 : ℤ) ∈ initSched.rendered ∧ (2 : ℤ) ∈ initSched.inflight) :=
  claim_C7.1 initSched Relation.ReflTransGen.refl 2

end Flipbook
